import Mathlib

/-!
# Shallow embedding of `shop_management.py`

The repository is a small shop-management tool backed by SQLite. We embed its
database state and its public operations as Lean definitions:

* a database state is a record of the four tables (`products`, `customers`,
  `orders`, `order_items`) together with the `AUTOINCREMENT` counters of the
  three tables that have an `INTEGER PRIMARY KEY AUTOINCREMENT` column;
* SQLite `REAL` prices are modelled as exact rationals (no claim under
  consideration depends on floating-point rounding: every statement proved
  below is representation-independent — totals are compared against the very
  sum the SQL query computes, never against an independently rounded value);
* the `created_at` ISO-8601 UTC timestamp string (generated by
  `datetime.now(timezone.utc).isoformat()`, an effect) is modelled as a
  numeric UTC timestamp passed to `create_order` as an explicit argument;
  lexicographic order on the fixed-format ISO strings coincides with numeric
  order on the instants they denote;
* every Python function opens a connection with `PRAGMA foreign_keys = ON`
  inside a `with connect(db_path) as connection:` block, which commits on
  normal exit and rolls the whole transaction back when an exception escapes.
  Fallible operations therefore return the committed state paired with an
  `Except`: the error branch returns the *unchanged* input state, which is
  exactly the rollback the `with` block performs;
* `id INTEGER PRIMARY KEY` makes duplicate ids unrepresentable in the store;
  where a proof needs that schema fact it appears as an explicit
  `List.Nodup` hypothesis.
-/

namespace Shop

/-- Row of the `products` table (`id INTEGER PRIMARY KEY AUTOINCREMENT`,
`name TEXT NOT NULL`, `price REAL NOT NULL`, `stock INTEGER NOT NULL`). -/
structure Product where
  id : Int
  name : String
  price : ℚ
  stock : Int
deriving Repr, DecidableEq

/-- Row of the `customers` table. -/
structure Customer where
  id : Int
  name : String
  email : String
deriving Repr, DecidableEq

/-- Row of the `orders` table; `created_at` is the UTC timestamp fixed at the
start of `create_order`. -/
structure Order where
  id : Int
  customer_id : Int
  created_at : Nat
deriving Repr, DecidableEq

/-- Row of the `order_items` table (no primary key; `price` is the captured
unit price). -/
structure OrderItem where
  order_id : Int
  product_id : Int
  quantity : Int
  price : ℚ
deriving Repr, DecidableEq

/-- The `OrderLine` dataclass: one requested `(product_id, quantity)` pair. -/
structure OrderLine where
  product_id : Int
  quantity : Int
deriving Repr, DecidableEq

/-- A database state: the four tables plus the autoincrement counters. -/
structure DB where
  products : List Product
  customers : List Customer
  orders : List Order
  order_items : List OrderItem
  next_product_id : Int
  next_customer_id : Int
  next_order_id : Int
deriving Repr, DecidableEq

/-- `init_db` on a fresh path: empty tables, counters at 1. -/
def init_db : DB :=
  { products := [], customers := [], orders := [], order_items := []
    next_product_id := 1, next_customer_id := 1, next_order_id := 1 }

/-- `add_product`: `INSERT INTO products (name, price, stock) VALUES (?,?,?)`,
returning `lastrowid`. -/
def add_product (db : DB) (name : String) (price : ℚ) (stock : Int) :
    Int × DB :=
  (db.next_product_id,
   { db with
       products :=
         db.products ++ [⟨db.next_product_id, name, price, stock⟩]
       next_product_id := db.next_product_id + 1 })

/-- `list_products`: `SELECT id, name, price, stock FROM products`. -/
def list_products (db : DB) : List Product := db.products

/-- `update_product_stock`:
`UPDATE products SET stock = ? WHERE id = ?` — an unconditional overwrite,
a no-op when no row has that id. -/
def update_product_stock (db : DB) (product_id : Int) (stock : Int) : DB :=
  { db with
      products :=
        db.products.map fun p =>
          if p.id = product_id then { p with stock := stock } else p }

/-- Error message raised by SQLite for a foreign-key violation; with
`PRAGMA foreign_keys = ON` the violating statement fails immediately and the
`with` block rolls the transaction back. -/
def fkErrorMsg : String := "FOREIGN KEY constraint failed"

/-- `delete_product`: `DELETE FROM products WHERE id = ?`.  With foreign keys
enforced, deleting a product row that is still referenced by an
`order_items` row violates the `order_items.product_id` foreign key: the
statement fails and the state is unchanged. -/
def delete_product (db : DB) (product_id : Int) : DB × Except String Unit :=
  if (db.products.any fun p => p.id == product_id) &&
     (db.order_items.any fun it => it.product_id == product_id) then
    (db, Except.error fkErrorMsg)
  else
    ({ db with
         products := db.products.filter fun p => !(p.id == product_id) },
     Except.ok ())

/-- `add_customer`: `INSERT INTO customers (name, email) VALUES (?,?)`. -/
def add_customer (db : DB) (name : String) (email : String) : Int × DB :=
  (db.next_customer_id,
   { db with
       customers := db.customers ++ [⟨db.next_customer_id, name, email⟩]
       next_customer_id := db.next_customer_id + 1 })

/-- `list_customers`: `SELECT id, name, email FROM customers`. -/
def list_customers (db : DB) : List Customer := db.customers

/-- `SELECT ... FROM customers WHERE id = ?` would find a row; used to model
the immediate foreign-key check performed by
`INSERT INTO orders (customer_id, ...)`. -/
def customerExists (db : DB) (customer_id : Int) : Bool :=
  db.customers.any fun c => c.id == customer_id

/-- Error message of `create_order` when a requested product id has no row. -/
def productNotFoundMsg (product_id : Int) : String :=
  "Product " ++ toString product_id ++ " not found"

/-- Error message of `create_order` when the requested quantity exceeds the
current stock; it reports the quantity available at check time. -/
def insufficientStockMsg (product_id : Int) (stock : Int) : String :=
  "Insufficient stock for product " ++ toString product_id ++ ": " ++
    toString stock ++ " available"

/-- `UPDATE products SET stock = stock - ? WHERE id = ?`. -/
def decStock (ps : List Product) (product_id : Int) (quantity : Int) :
    List Product :=
  ps.map fun p =>
    if p.id = product_id then { p with stock := p.stock - quantity } else p

/-- One iteration of `create_order`'s loop body after a successful check:
`INSERT INTO order_items (order_id, product_id, quantity, price)` with the
price read in this iteration's `SELECT`, then the stock decrement. -/
def applyLine (db : DB) (order_id : Int) (l : OrderLine) (p : Product) : DB :=
  { db with
      order_items :=
        db.order_items ++ [⟨order_id, l.product_id, l.quantity, p.price⟩]
      products := decStock db.products l.product_id l.quantity }

/-- The `for line in lines:` loop of `create_order`, executed inside the open
transaction: `SELECT price, stock FROM products WHERE id = ?` (`fetchone`),
raise if no row, raise if `stock < quantity`, else insert the line item with
the price just read and decrement the stock. -/
def processLines (db : DB) (order_id : Int) :
    List OrderLine → Except String DB
  | [] => Except.ok db
  | l :: rest =>
    match db.products.find? (fun p => p.id == l.product_id) with
    | none => Except.error (productNotFoundMsg l.product_id)
    | some p =>
      if p.stock < l.quantity then
        Except.error (insufficientStockMsg l.product_id p.stock)
      else
        processLines (applyLine db order_id l p) order_id rest

/-- `create_order(db_path, customer_id, lines)`.  Inside one transaction it
inserts the `orders` row (the immediate foreign-key check on
`orders.customer_id` fails the insert when the customer does not exist), runs
the line loop, and commits; any exception makes the `with` block roll the
whole transaction back, so the error branches return the input state
unchanged. Returns the committed state and `order_id` or the error. -/
def create_order (db : DB) (customer_id : Int) (timestamp : Nat)
    (lines : List OrderLine) : DB × Except String Int :=
  if customerExists db customer_id then
    match processLines
        { db with
            orders := db.orders ++
              [⟨db.next_order_id, customer_id, timestamp⟩]
            next_order_id := db.next_order_id + 1 }
        db.next_order_id lines with
    | Except.error e => (db, Except.error e)
    | Except.ok db2 => (db2, Except.ok db.next_order_id)
  else (db, Except.error fkErrorMsg)

/-- One row of the `list_orders` result set. -/
structure OrderRow where
  id : Int
  created_at : Nat
  customer_name : String
  total : ℚ
deriving Repr, DecidableEq

/-- `order_items.order_id = orders.id` join condition for one order. -/
def itemsOf (db : DB) (order_id : Int) : List OrderItem :=
  db.order_items.filter fun it => it.order_id == order_id

/-- `SUM(order_items.quantity * order_items.price)` over one order's group. -/
def orderTotal (db : DB) (order_id : Int) : ℚ :=
  ((itemsOf db order_id).map fun it => (it.quantity : ℚ) * it.price).sum

/-- The contribution of one `orders` row to the `list_orders` result:
the inner join with `customers` (on the primary key `customers.id`, so at
most one row matches) and with `order_items` drops the order when the
customer is missing or the order has no items; otherwise `GROUP BY orders.id`
produces one row with the summed total. -/
def rowOf (db : DB) (o : Order) : Option OrderRow :=
  match db.customers.find? (fun c => c.id == o.customer_id),
        itemsOf db o.id with
  | some c, _ :: _ => some ⟨o.id, o.created_at, c.name, orderTotal db o.id⟩
  | _, _ => none

/-- Insert one result row into a list kept in `ORDER BY created_at DESC`
order. -/
def insertRow (r : OrderRow) : List OrderRow → List OrderRow
  | [] => [r]
  | x :: xs =>
    if x.created_at ≤ r.created_at then r :: x :: xs else x :: insertRow r xs

/-- `ORDER BY orders.created_at DESC` (tie order among equal timestamps is
unspecified by SQLite; any descending arrangement realises it). -/
def sortRows : List OrderRow → List OrderRow
  | [] => []
  | r :: rs => insertRow r (sortRows rs)

/-- `list_orders`: the read-only reporting query —
`SELECT orders.id, orders.created_at, customers.name, SUM(quantity*price)
FROM orders JOIN customers ... JOIN order_items ... GROUP BY orders.id
ORDER BY orders.created_at DESC`. -/
def list_orders (db : DB) : List OrderRow :=
  sortRows (db.orders.filterMap (rowOf db))

/-! ## CLI order-line parsing (`_parse_order_lines`)

`_parse_order_lines` checks `":" in raw`, splits at the **first** colon
(`raw.split(":", 1)`), and feeds both parts to Python's `int()`.  `int()`
accepts surrounding whitespace, an optional `+`/`-` sign, and decimal digits
with single underscores between digits; anything else raises `ValueError`.
We model `int()` on ASCII strings (the strings appearing in the theorems
below are all ASCII, where the model agrees with CPython exactly). -/

/-- ASCII decimal digit `0`-`9` (code points 48-57). -/
def isAsciiDigit (c : Char) : Bool := 48 ≤ c.toNat && c.toNat ≤ 57

/-- ASCII whitespace stripped by `int()` (space, TAB, LF, VT, FF, CR). -/
def isPyWs (c : Char) : Bool :=
  c.toNat = 32 || c.toNat = 9 || c.toNat = 10 ||
  c.toNat = 11 || c.toNat = 12 || c.toNat = 13

/-- Strip leading and trailing whitespace, as `int()` does. -/
def stripWs (cs : List Char) : List Char :=
  ((cs.dropWhile isPyWs).reverse.dropWhile isPyWs).reverse

/-- Continue Python's `digitpart ::= digit (["_"] digit)*` after the first
digit has been consumed into `acc` (code point 95 is the underscore). -/
def pyDigitsAux (acc : Nat) : List Char → Option Nat
  | [] => some acc
  | c :: rest =>
    if isAsciiDigit c then pyDigitsAux (acc * 10 + (c.toNat - 48)) rest
    else if c.toNat = 95 then
      match rest with
      | c2 :: rest2 =>
        if isAsciiDigit c2 then pyDigitsAux (acc * 10 + (c2.toNat - 48)) rest2
        else none
      | [] => none
    else none

/-- Python's `digitpart`: a nonempty digit run with optional single
underscores between digits. -/
def pyDigits : List Char → Option Nat
  | [] => none
  | c :: rest =>
    if isAsciiDigit c then pyDigitsAux (c.toNat - 48) rest else none

/-- The sign-then-digits stage of `int()`: an optional sign (code points 45
`-` and 43 `+`) followed by a `digitpart`. -/
def pyIntSign : List Char → Option Int
  | [] => none
  | c :: rest =>
    if c.toNat = 45 then (pyDigits rest).map fun n => -(n : Int)
    else if c.toNat = 43 then (pyDigits rest).map fun n => (n : Int)
    else (pyDigits (c :: rest)).map fun n => (n : Int)

/-- Python's `int(s)` on an ASCII string: strip whitespace, optional sign,
then a `digitpart`; `none` models the `ValueError`. -/
def pyInt (cs : List Char) : Option Int := pyIntSign (stripWs cs)

/-- `raw.split(":", 1)` when `":" in raw`: the part before the first colon
(code point 58) and everything after it; `none` when there is no colon. -/
def splitFirstColon : List Char → Option (List Char × List Char)
  | [] => none
  | c :: rest =>
    if c.toNat = 58 then some ([], rest)
    else (splitFirstColon rest).map fun ab => (c :: ab.1, ab.2)

/-- Modelled from the spec: the claim's token pattern `^\d+:\d+$` — exactly
one run of ASCII digits, a colon, and another run of ASCII digits, nothing
else.  (Both runs are colon-free, so the splitting colon is the first one.)
This definition exists to be compared against the source's parser; it is not
part of the program. -/
def matchesLinePattern (s : String) : Bool :=
  match splitFirstColon s.data with
  | some (a, b) =>
    !a.isEmpty && !b.isEmpty && a.all isAsciiDigit && b.all isAsciiDigit
  | none => false

/-- One iteration of `_parse_order_lines`'s loop: reject a token without a
colon, split at the first colon, parse both parts with `int()`. -/
def parseOneLine (raw : String) : Except String OrderLine :=
  match splitFirstColon raw.data with
  | none =>
    Except.error
      ("Invalid order line \x27" ++ raw ++ "\x27, expected product_id:quantity")
  | some (a, b) =>
    match pyInt a, pyInt b with
    | some pid, some q => Except.ok ⟨pid, q⟩
    | _, _ => Except.error "invalid literal for int() with base 10"

/-- The loop of `_parse_order_lines`: tokens are parsed in order and the
first bad token aborts with its error. -/
def parseAllLines : List String → Except String (List OrderLine)
  | [] => Except.ok []
  | r :: rs =>
    match parseOneLine r with
    | Except.error e => Except.error e
    | Except.ok l =>
      match parseAllLines rs with
      | Except.error e => Except.error e
      | Except.ok ls => Except.ok (l :: ls)

/-- `_parse_order_lines`: parse every token, then reject an empty result
(`"At least one order line is required"`). This runs in the CLI before
`create_order` is invoked. -/
def parse_order_lines (raw_lines : List String) :
    Except String (List OrderLine) :=
  match parseAllLines raw_lines with
  | Except.error e => Except.error e
  | Except.ok [] => Except.error "At least one order line is required"
  | Except.ok parsed => Except.ok parsed

/-! ## Claim-side predicates -/

/-- "Some line fails": walking the lines in caller order over the products
table, a line fails when its product is not found or its quantity exceeds
the stock *remaining after the previous lines' decrements*; this is the
failure notion used by the spec's all-or-nothing claim. -/
def someLineFails (ps : List Product) : List OrderLine → Bool
  | [] => false
  | l :: rest =>
    match ps.find? (fun p => p.id == l.product_id) with
    | none => true
    | some p =>
      if p.stock < l.quantity then true
      else someLineFails (decStock ps l.product_id l.quantity) rest

/-- All stocks in the products table are non-negative. -/
def allStocksNonneg (db : DB) : Prop := ∀ p ∈ db.products, 0 ≤ p.stock

instance (db : DB) : Decidable (allStocksNonneg db) := by
  unfold allStocksNonneg; infer_instance

/-- Descending-timestamp order on report rows: `a` may precede `b`. -/
def rowGe (a b : OrderRow) : Prop := b.created_at ≤ a.created_at

/-- `customers.name` of the (by primary key unique) matching customer row;
empty when the join finds no row. -/
def customerNameOf (db : DB) (cid : Int) : String :=
  match db.customers.find? (fun c => c.id == cid) with
  | some c => c.name
  | none => ""

/-! ## Lemmas about the stock decrement and product lookup -/

theorem decStock_cons (p : Product) (ps : List Product) (pid q : Int) :
    decStock (p :: ps) pid q =
      (if p.id = pid then { p with stock := p.stock - q } else p) ::
        decStock ps pid q := rfl

theorem decStock_map_id (ps : List Product) (pid q : Int) :
    (decStock ps pid q).map (fun p => p.id) = ps.map (fun p => p.id) := by
  induction ps with
  | nil => rfl
  | cons p ps ih =>
    rw [decStock_cons, List.map_cons, List.map_cons, ih]
    by_cases h : p.id = pid <;> simp [h]

theorem find?_decStock {ps : List Product} {pid : Int} {prod : Product}
    (q : Int) (h : ps.find? (fun p => p.id == pid) = some prod) :
    (decStock ps pid q).find? (fun p => p.id == pid) =
      some { prod with stock := prod.stock - q } := by
  induction ps with
  | nil => simp [List.find?] at h
  | cons p ps ih =>
    rw [decStock_cons]
    by_cases hp : p.id = pid
    · rw [List.find?_cons_of_pos _ (by simp [hp])] at h
      cases h
      rw [if_pos hp]
      exact List.find?_cons_of_pos _ (by simp [hp])
    · rw [List.find?_cons_of_neg _ (by simp [hp])] at h
      rw [if_neg hp, List.find?_cons_of_neg _ (by simp [hp])]
      exact ih h

theorem find?_decStock_price {ps : List Product} {pid x q : Int} {p' : Product}
    (h : (decStock ps pid q).find? (fun pr => pr.id == x) = some p') :
    ∃ p0, ps.find? (fun pr => pr.id == x) = some p0 ∧ p0.price = p'.price := by
  induction ps with
  | nil => simp [decStock, List.find?] at h
  | cons p ps ih =>
    rw [decStock_cons] at h
    by_cases hp : p.id = x
    · by_cases hq : p.id = pid
      · rw [if_pos hq, List.find?_cons_of_pos _ (by simp [hp])] at h
        have h' := Option.some.inj h
        exact ⟨p, List.find?_cons_of_pos _ (by simp [hp]), by rw [← h']⟩
      · rw [if_neg hq, List.find?_cons_of_pos _ (by simp [hp])] at h
        have h' := Option.some.inj h
        exact ⟨p, List.find?_cons_of_pos _ (by simp [hp]), by rw [← h']⟩
    · rw [List.find?_cons_of_neg _ (by split <;> simp [hp])] at h
      obtain ⟨p0, hp0, hpr⟩ := ih h
      exact ⟨p0, by rw [List.find?_cons_of_neg _ (by simp [hp])]; exact hp0, hpr⟩

theorem find?_eq_unique_of_nodup {ps : List Product} {pid : Int}
    {prod : Product} (hnd : (ps.map (fun p => p.id)).Nodup)
    (h : ps.find? (fun p => p.id == pid) = some prod) :
    ∀ p0 ∈ ps, p0.id = pid → p0 = prod := by
  induction ps with
  | nil => simp at h
  | cons p ps ih =>
    rw [List.map_cons, List.nodup_cons] at hnd
    intro p0 hp0 hid
    by_cases hp : p.id = pid
    · rw [List.find?_cons_of_pos _ (by simp [hp])] at h
      cases h
      rcases List.mem_cons.mp hp0 with h0 | h0
      · exact h0
      · exfalso
        apply hnd.1
        have hmem : p0.id ∈ ps.map (fun p => p.id) := List.mem_map_of_mem _ h0
        rwa [hid, ← hp] at hmem
    · rw [List.find?_cons_of_neg _ (by simp [hp])] at h
      rcases List.mem_cons.mp hp0 with h0 | h0
      · rw [h0] at hid; exact absurd hid hp
      · exact ih hnd.2 h p0 h0 hid

/-! ## Step lemmas for the `create_order` line loop -/

theorem processLines_cons_notfound {db : DB} {oid : Int} {l : OrderLine}
    {rest : List OrderLine}
    (hf : db.products.find? (fun pr => pr.id == l.product_id) = none) :
    processLines db oid (l :: rest) =
      Except.error (productNotFoundMsg l.product_id) := by
  simp only [processLines, hf]

theorem processLines_cons_insufficient {db : DB} {oid : Int} {l : OrderLine}
    {rest : List OrderLine} {p : Product}
    (hf : db.products.find? (fun pr => pr.id == l.product_id) = some p)
    (hs : p.stock < l.quantity) :
    processLines db oid (l :: rest) =
      Except.error (insufficientStockMsg l.product_id p.stock) := by
  simp only [processLines, hf]
  rw [if_pos hs]

theorem processLines_cons_found {db : DB} {oid : Int} {l : OrderLine}
    {rest : List OrderLine} {p : Product}
    (hf : db.products.find? (fun pr => pr.id == l.product_id) = some p)
    (hs : ¬ p.stock < l.quantity) :
    processLines db oid (l :: rest) =
      processLines (applyLine db oid l p) oid rest := by
  simp only [processLines, hf]
  rw [if_neg hs]

theorem someLineFails_cons_found {ps : List Product} {l : OrderLine}
    {rest : List OrderLine} {p : Product}
    (hf : ps.find? (fun pr => pr.id == l.product_id) = some p)
    (hs : ¬ p.stock < l.quantity) :
    someLineFails ps (l :: rest) =
      someLineFails (decStock ps l.product_id l.quantity) rest := by
  simp only [someLineFails, hf]
  rw [if_neg hs]

/-! ## Inductive facts about the line loop -/

theorem processLines_error_of_fail :
    ∀ (lines : List OrderLine) (db : DB) (oid : Int),
      someLineFails db.products lines = true →
      ∃ e, processLines db oid lines = Except.error e := by
  intro lines
  induction lines with
  | nil => intro db oid h; simp [someLineFails] at h
  | cons l rest ih =>
    intro db oid h
    cases hf : db.products.find? (fun pr => pr.id == l.product_id) with
    | none => exact ⟨_, processLines_cons_notfound hf⟩
    | some p =>
      by_cases hs : p.stock < l.quantity
      · exact ⟨_, processLines_cons_insufficient hf hs⟩
      · rw [someLineFails_cons_found hf hs] at h
        rw [processLines_cons_found hf hs]
        exact ih (applyLine db oid l p) oid h

theorem processLines_stock_nonneg :
    ∀ (lines : List OrderLine) (db : DB) (oid : Int) (db2 : DB),
      processLines db oid lines = Except.ok db2 →
      (∀ p ∈ db.products, 0 ≤ p.stock) →
      (db.products.map (fun p => p.id)).Nodup →
      ∀ p ∈ db2.products, 0 ≤ p.stock := by
  intro lines
  induction lines with
  | nil =>
    intro db oid db2 h hpos _
    simp only [processLines] at h
    cases h
    exact hpos
  | cons l rest ih =>
    intro db oid db2 h hpos hnd
    cases hf : db.products.find? (fun pr => pr.id == l.product_id) with
    | none => rw [processLines_cons_notfound hf] at h; simp at h
    | some p =>
      by_cases hs : p.stock < l.quantity
      · rw [processLines_cons_insufficient hf hs] at h; simp at h
      · rw [processLines_cons_found hf hs] at h
        apply ih _ oid db2 h
        · intro p1 hp1
          have hp1' : p1 ∈ decStock db.products l.product_id l.quantity := hp1
          simp only [decStock] at hp1'
          rcases List.mem_map.mp hp1' with ⟨p0, hp0, rfl⟩
          by_cases h0 : p0.id = l.product_id
          · have hep : p0 = p := find?_eq_unique_of_nodup hnd hf p0 hp0 h0
            subst hep
            rw [if_pos h0]
            show 0 ≤ p0.stock - l.quantity
            have := hpos p0 hp0
            omega
          · rw [if_neg h0]
            exact hpos p0 hp0
        · show ((decStock db.products l.product_id l.quantity).map
              (fun p => p.id)).Nodup
          rw [decStock_map_id]
          exact hnd

theorem processLines_quantities :
    ∀ (lines : List OrderLine) (db : DB) (oid : Int) (db2 : DB),
      processLines db oid lines = Except.ok db2 →
      db2.order_items.map (fun it => it.quantity) =
        db.order_items.map (fun it => it.quantity) ++
          lines.map (fun l => l.quantity) := by
  intro lines
  induction lines with
  | nil =>
    intro db oid db2 h
    simp only [processLines] at h
    cases h
    simp
  | cons l rest ih =>
    intro db oid db2 h
    cases hf : db.products.find? (fun pr => pr.id == l.product_id) with
    | none => rw [processLines_cons_notfound hf] at h; simp at h
    | some p =>
      by_cases hs : p.stock < l.quantity
      · rw [processLines_cons_insufficient hf hs] at h; simp at h
      · rw [processLines_cons_found hf hs] at h
        have hrec := ih _ oid db2 h
        have happ : (applyLine db oid l p).order_items =
            db.order_items ++ [⟨oid, l.product_id, l.quantity, p.price⟩] := rfl
        rw [happ] at hrec
        rw [hrec]
        simp

theorem processLines_prices :
    ∀ (lines : List OrderLine) (db : DB) (oid : Int) (db2 : DB),
      processLines db oid lines = Except.ok db2 →
      ∀ it ∈ db2.order_items,
        it ∈ db.order_items ∨
          ∃ p, db.products.find? (fun pr => pr.id == it.product_id) = some p ∧
            it.price = p.price := by
  intro lines
  induction lines with
  | nil =>
    intro db oid db2 h it hit
    simp only [processLines] at h
    cases h
    exact Or.inl hit
  | cons l rest ih =>
    intro db oid db2 h it hit
    cases hf : db.products.find? (fun pr => pr.id == l.product_id) with
    | none => rw [processLines_cons_notfound hf] at h; simp at h
    | some p =>
      by_cases hs : p.stock < l.quantity
      · rw [processLines_cons_insufficient hf hs] at h; simp at h
      · rw [processLines_cons_found hf hs] at h
        rcases ih _ oid db2 h it hit with hmem | ⟨p', hp', hpr⟩
        · have hmem' : it ∈ db.order_items ++
              [⟨oid, l.product_id, l.quantity, p.price⟩] := hmem
          rcases List.mem_append.mp hmem' with hold | hnew
          · exact Or.inl hold
          · have hit' := List.mem_singleton.mp hnew
            subst hit'
            exact Or.inr ⟨p, hf, rfl⟩
        · have hp'' : (decStock db.products l.product_id l.quantity).find?
              (fun pr => pr.id == it.product_id) = some p' := hp'
          obtain ⟨p0, hp0, hpr0⟩ := find?_decStock_price hp''
          exact Or.inr ⟨p0, hp0, hpr.trans hpr0.symm⟩

/-! ## Case analysis on `create_order` -/

theorem create_order_ok_elim {db : DB} {cid : Int} {ts : Nat}
    {lines : List OrderLine} {db2 : DB} {oid : Int}
    (h : create_order db cid ts lines = (db2, Except.ok oid)) :
    customerExists db cid = true ∧ oid = db.next_order_id ∧
      processLines
        { db with orders := db.orders ++ [⟨db.next_order_id, cid, ts⟩],
                  next_order_id := db.next_order_id + 1 }
        db.next_order_id lines = Except.ok db2 := by
  unfold create_order at h
  by_cases hcx : customerExists db cid = true
  · rw [if_pos hcx] at h
    cases hp : processLines
        { db with orders := db.orders ++ [⟨db.next_order_id, cid, ts⟩],
                  next_order_id := db.next_order_id + 1 }
        db.next_order_id lines with
    | error e => rw [hp] at h; simp at h
    | ok dbr =>
      rw [hp] at h
      injection h with h1 h2
      injection h2 with h2
      exact ⟨hcx, h2.symm, by rw [h1]⟩
  · rw [if_neg hcx] at h; simp at h

theorem create_order_fst_cases (db : DB) (cid : Int) (ts : Nat)
    (lines : List OrderLine) :
    (create_order db cid ts lines).1 = db ∨
      ∃ db2 oid, create_order db cid ts lines = (db2, Except.ok oid) ∧
        (create_order db cid ts lines).1 = db2 := by
  unfold create_order
  by_cases hcx : customerExists db cid = true
  · rw [if_pos hcx]
    cases hp : processLines
        { db with orders := db.orders ++ [⟨db.next_order_id, cid, ts⟩],
                  next_order_id := db.next_order_id + 1 }
        db.next_order_id lines with
    | error e => exact Or.inl rfl
    | ok dbr => exact Or.inr ⟨dbr, db.next_order_id, rfl, rfl⟩
  · rw [if_neg hcx]
    exact Or.inl rfl

/-! ## The reporting view: sorting and row shape -/

theorem insertRow_perm (r : OrderRow) (l : List OrderRow) :
    (insertRow r l).Perm (r :: l) := by
  induction l with
  | nil => exact List.Perm.refl _
  | cons x xs ih =>
    simp only [insertRow]
    by_cases h : x.created_at ≤ r.created_at
    · rw [if_pos h]
    · rw [if_neg h]
      exact (List.Perm.cons x ih).trans (List.Perm.swap r x xs)

theorem sortRows_perm (l : List OrderRow) : (sortRows l).Perm l := by
  induction l with
  | nil => exact List.Perm.refl _
  | cons r rs ih =>
    simp only [sortRows]
    exact (insertRow_perm r (sortRows rs)).trans (List.Perm.cons r ih)

theorem sorted_insertRow {l : List OrderRow} (r : OrderRow)
    (h : l.Sorted rowGe) : (insertRow r l).Sorted rowGe := by
  induction l with
  | nil => simp [insertRow, List.sorted_singleton]
  | cons x xs ih =>
    rw [List.sorted_cons] at h
    simp only [insertRow]
    by_cases hx : x.created_at ≤ r.created_at
    · rw [if_pos hx, List.sorted_cons]
      constructor
      · intro b hb
        rcases List.mem_cons.mp hb with hbx | hb'
        · rw [hbx]; exact hx
        · exact le_trans (h.1 b hb') hx
      · rw [List.sorted_cons]
        exact h
    · rw [if_neg hx, List.sorted_cons]
      constructor
      · intro b hb
        have hb' := (insertRow_perm r xs).mem_iff.mp hb
        rcases List.mem_cons.mp hb' with hbr | hbxs
        · rw [hbr]
          show r.created_at ≤ x.created_at
          omega
        · exact h.1 b hbxs
      · exact ih h.2

theorem sorted_sortRows (l : List OrderRow) : (sortRows l).Sorted rowGe := by
  induction l with
  | nil => exact List.sorted_nil
  | cons r rs ih =>
    simp only [sortRows]
    exact sorted_insertRow r ih

theorem rowOf_eq_some {db : DB} {o : Order} {c : Customer}
    (hc : db.customers.find? (fun c => c.id == o.customer_id) = some c)
    (hi : itemsOf db o.id ≠ []) :
    rowOf db o = some ⟨o.id, o.created_at, c.name, orderTotal db o.id⟩ := by
  cases hit : itemsOf db o.id with
  | nil => exact absurd hit hi
  | cons it its =>
    unfold rowOf
    rw [hc, hit]

theorem rowOf_some_elim {db : DB} {o : Order} {r : OrderRow}
    (h : rowOf db o = some r) : r.id = o.id ∧ itemsOf db o.id ≠ [] := by
  unfold rowOf at h
  cases hc : db.customers.find? (fun c => c.id == o.customer_id) with
  | none =>
    rw [hc] at h
    cases hit : itemsOf db o.id with
    | nil => rw [hit] at h; simp at h
    | cons a l => rw [hit] at h; simp at h
  | some c =>
    rw [hc] at h
    cases hit : itemsOf db o.id with
    | nil => rw [hit] at h; simp at h
    | cons a l =>
      rw [hit] at h
      have h' := Option.some.inj h
      constructor
      · rw [← h']
      · simp

theorem filterMap_rowOf_eq_map (db : DB) :
    ∀ l : List Order,
      (∀ o ∈ l, (db.customers.find? (fun c => c.id == o.customer_id)).isSome) →
      (∀ o ∈ l, itemsOf db o.id ≠ []) →
      l.filterMap (rowOf db) =
        l.map (fun o =>
          ⟨o.id, o.created_at, customerNameOf db o.customer_id,
            orderTotal db o.id⟩) := by
  intro l
  induction l with
  | nil => intro _ _; rfl
  | cons o os ih =>
    intro hc hi
    have hc0 := hc o (List.mem_cons_self o os)
    have hi0 := hi o (List.mem_cons_self o os)
    rcases Option.isSome_iff_exists.mp hc0 with ⟨c, hcc⟩
    have hname : customerNameOf db o.customer_id = c.name := by
      unfold customerNameOf
      rw [hcc]
    simp only [List.filterMap_cons, rowOf_eq_some hcc hi0, List.map_cons, hname]
    rw [ih (fun o1 ho1 => hc o1 (List.mem_cons_of_mem _ ho1))
          (fun o1 ho1 => hi o1 (List.mem_cons_of_mem _ ho1))]

/-! ## Lemmas about the CLI token parser -/

theorem digit_not_ws {c : Char} (h : isAsciiDigit c = true) :
    isPyWs c = false := by
  simp only [isAsciiDigit, Bool.and_eq_true, decide_eq_true_eq] at h
  simp only [isPyWs, Bool.or_eq_false_iff, decide_eq_false_iff_not]
  omega

theorem dropWhile_eq_self_of_all_false {p : Char → Bool} :
    ∀ {cs : List Char}, (∀ c ∈ cs, p c = false) → cs.dropWhile p = cs := by
  intro cs h
  cases cs with
  | nil => rfl
  | cons c rest =>
    rw [List.dropWhile_cons_of_neg]
    simp [h c (List.mem_cons_self c rest)]

theorem stripWs_of_no_ws {cs : List Char}
    (h : ∀ c ∈ cs, isPyWs c = false) : stripWs cs = cs := by
  unfold stripWs
  rw [dropWhile_eq_self_of_all_false h,
    dropWhile_eq_self_of_all_false (fun c hc => h c (List.mem_reverse.mp hc))]
  exact List.reverse_reverse cs

theorem pyDigitsAux_of_digits :
    ∀ (cs : List Char) (acc : Nat), cs.all isAsciiDigit = true →
      ∃ n, pyDigitsAux acc cs = some n := by
  intro cs
  induction cs with
  | nil => exact fun acc _ => ⟨acc, rfl⟩
  | cons c rest ih =>
    intro acc h
    simp only [List.all_cons, Bool.and_eq_true] at h
    cases rest with
    | nil =>
      rw [pyDigitsAux.eq_3, if_pos h.1]
      exact ⟨_, rfl⟩
    | cons c2 rest2 =>
      rw [pyDigitsAux.eq_2, if_pos h.1]
      exact ih _ h.2

theorem pyDigits_of_digits {cs : List Char} (hne : cs ≠ [])
    (h : cs.all isAsciiDigit = true) : ∃ n, pyDigits cs = some n := by
  cases cs with
  | nil => exact absurd rfl hne
  | cons c rest =>
    simp only [List.all_cons, Bool.and_eq_true] at h
    simp only [pyDigits]
    rw [if_pos h.1]
    exact pyDigitsAux_of_digits rest _ h.2

theorem pyInt_of_digits {cs : List Char} (hne : cs ≠ [])
    (hd : cs.all isAsciiDigit = true) : ∃ n : Nat, pyInt cs = some (n : Int) := by
  have hall : ∀ c ∈ cs, isAsciiDigit c = true := by
    intro c hc
    exact List.all_eq_true.mp hd c hc
  have hstrip : stripWs cs = cs :=
    stripWs_of_no_ws (fun c hc => digit_not_ws (hall c hc))
  unfold pyInt
  rw [hstrip]
  cases cs with
  | nil => exact absurd rfl hne
  | cons c rest =>
    have hc : isAsciiDigit c = true := hall c (List.mem_cons_self _ _)
    have hc' : 48 ≤ c.toNat ∧ c.toNat ≤ 57 := by
      simpa only [isAsciiDigit, Bool.and_eq_true, decide_eq_true_eq] using hc
    simp only [pyIntSign]
    rw [if_neg (by omega), if_neg (by omega)]
    obtain ⟨n, hn⟩ := pyDigits_of_digits (by simp) hd
    rw [hn]
    exact ⟨n, rfl⟩

/-! ## Concrete states used by the witnesses -/

/-- One widget in stock, one customer. -/
def lowStockDB : DB :=
  { products := [⟨1, "Widget", 10, 1⟩],
    customers := [⟨1, "Alice", "alice@example.com"⟩],
    orders := [], order_items := [],
    next_product_id := 2, next_customer_id := 2, next_order_id := 1 }

/-- Five widgets in stock, one customer. -/
def widgetStoreDB : DB :=
  { products := [⟨1, "Widget", 10, 5⟩],
    customers := [⟨1, "Alice", "alice@example.com"⟩],
    orders := [], order_items := [],
    next_product_id := 2, next_customer_id := 2, next_order_id := 1 }

/-- One customer, empty catalog. -/
def aliceOnlyDB : DB :=
  { products := [], customers := [⟨1, "Alice", "alice@example.com"⟩],
    orders := [], order_items := [],
    next_product_id := 1, next_customer_id := 2, next_order_id := 1 }

/-! ## Claims -/

/-- C1: `create_order` is all-or-nothing: for every database state and every
non-empty line sequence, if some line fails (product not found, or requested
quantity exceeding the stock as left by the previous lines of the same
call), the committed state is exactly the input state — no `orders` row
(including the one inserted before the failing line), no `order_items` row,
and no stock change survive — and the call reports an error. -/
theorem create_order_all_or_nothing (db : DB) (cid : Int) (ts : Nat)
    (lines : List OrderLine) (_hne : lines ≠ [])
    (hfail : someLineFails db.products lines = true) :
    (create_order db cid ts lines).1 = db ∧
      ∃ e, (create_order db cid ts lines).2 = Except.error e := by
  unfold create_order
  by_cases hcx : customerExists db cid = true
  · rw [if_pos hcx]
    obtain ⟨e, he⟩ := processLines_error_of_fail lines
      { db with orders := db.orders ++ [⟨db.next_order_id, cid, ts⟩],
                next_order_id := db.next_order_id + 1 }
      db.next_order_id hfail
    rw [he]
    exact ⟨rfl, e, rfl⟩
  · rw [if_neg hcx]
    exact ⟨rfl, fkErrorMsg, rfl⟩

/-- Witness for C1 at a concrete state: one widget in stock, two requested;
the call leaves the state untouched and errors. -/
theorem create_order_all_or_nothing_witness :
    ([(⟨1, 2⟩ : OrderLine)] ≠ []) ∧
      someLineFails lowStockDB.products [⟨1, 2⟩] = true ∧
      (create_order lowStockDB 1 7 [⟨1, 2⟩]).1 = lowStockDB ∧
      ∃ e, (create_order lowStockDB 1 7 [⟨1, 2⟩]).2 = Except.error e :=
  ⟨by simp, rfl,
    create_order_all_or_nothing lowStockDB 1 7 [⟨1, 2⟩] (by simp) rfl⟩

/-- C2: lines are processed strictly in caller order with no
pre-aggregation: with two lines for the same product where the first fits
the stock but the combined quantity exceeds it, the call fails on the
*second* line, whose check is made against the stock remaining after the
first line's decrement (the reported availability is `stock - q1`), and the
state is unchanged. -/
theorem create_order_second_line_checked (db : DB) (cid pid q1 q2 : Int)
    (ts : Nat) (prod : Product)
    (hc : customerExists db cid = true)
    (hp : db.products.find? (fun p => p.id == pid) = some prod)
    (h1 : q1 ≤ prod.stock) (h2 : prod.stock < q1 + q2) :
    create_order db cid ts [⟨pid, q1⟩, ⟨pid, q2⟩] =
      (db, Except.error (insufficientStockMsg pid (prod.stock - q1))) := by
  unfold create_order
  rw [if_pos hc]
  have hp1 : ({ db with
      orders := db.orders ++ [⟨db.next_order_id, cid, ts⟩],
      next_order_id := db.next_order_id + 1 } : DB).products.find?
        (fun p => p.id == (⟨pid, q1⟩ : OrderLine).product_id) = some prod := hp
  rw [processLines_cons_found hp1
    (show ¬ prod.stock < (⟨pid, q1⟩ : OrderLine).quantity from
      Int.not_lt.mpr h1)]
  have hp2 : (applyLine
      { db with
          orders := db.orders ++ [⟨db.next_order_id, cid, ts⟩],
          next_order_id := db.next_order_id + 1 }
      db.next_order_id ⟨pid, q1⟩ prod).products.find?
        (fun p => p.id == (⟨pid, q2⟩ : OrderLine).product_id) =
      some { prod with stock := prod.stock - q1 } := find?_decStock q1 hp
  rw [processLines_cons_insufficient hp2
    (show ({ prod with stock := prod.stock - q1 } : Product).stock <
        (⟨pid, q2⟩ : OrderLine).quantity by
      show prod.stock - q1 < q2
      omega)]

/-- Witness for C2: stock 5, lines (3, 3): the second line fails and the
message reports the 2 units left after the first line. -/
theorem create_order_second_line_checked_witness :
    create_order widgetStoreDB 1 7 [⟨1, 3⟩, ⟨1, 3⟩] =
      (widgetStoreDB, Except.error (insufficientStockMsg 1 2)) :=
  create_order_second_line_checked widgetStoreDB 1 1 3 3 7
    ⟨1, "Widget", 10, 5⟩ rfl rfl (by decide) (by decide)

/-- Counterexample to C3 as stated: calling `create_order` directly with an
empty line sequence does not fail validation — it returns order id 1 and
commits an `orders` row. -/
theorem create_order_empty_lines_commits :
    (create_order aliceOnlyDB 1 0 []).2 = Except.ok 1 ∧
      (create_order aliceOnlyDB 1 0 []).1.orders = [⟨1, 1, 0⟩] := ⟨rfl, rfl⟩

/-- C3 (amended): the empty-lines validation lives in the CLI parsing layer,
not in `create_order`: `_parse_order_lines` applied to no tokens raises
before the engine is invoked, while `create_order` itself, given an existing
customer and an empty line sequence, inserts and commits an order row with
no line items and returns its id. -/
theorem empty_lines_cli_validation :
    parse_order_lines [] =
        Except.error "At least one order line is required" ∧
      ∀ (db : DB) (cid : Int) (ts : Nat), customerExists db cid = true →
        create_order db cid ts [] =
          ({ db with
               orders := db.orders ++ [⟨db.next_order_id, cid, ts⟩],
               next_order_id := db.next_order_id + 1 },
            Except.ok db.next_order_id) := by
  refine ⟨rfl, ?_⟩
  intro db cid ts hc
  unfold create_order
  rw [if_pos hc]
  rfl

/-- Witness for the amended C3 at a concrete state. -/
theorem empty_lines_cli_validation_witness :
    customerExists aliceOnlyDB 1 = true ∧
      create_order aliceOnlyDB 1 0 [] =
        ({ aliceOnlyDB with orders := [⟨1, 1, 0⟩], next_order_id := 2 },
          Except.ok 1) :=
  ⟨rfl, empty_lines_cli_validation.2 aliceOnlyDB 1 0 rfl⟩

/-- C7: with the order→customer foreign key enforced (`PRAGMA foreign_keys
= ON` is executed on every connection), `create_order` with a customer id
absent from the customers table fails as a whole and persists nothing: the
committed state is the input state, with no order row, no order items, and
no stock change. -/
theorem create_order_unknown_customer (db : DB) (cid : Int) (ts : Nat)
    (lines : List OrderLine) (h : customerExists db cid = false) :
    create_order db cid ts lines = (db, Except.error fkErrorMsg) := by
  unfold create_order
  rw [if_neg (by simp [h])]

/-- Witness for C7: customer 999 does not exist. -/
theorem create_order_unknown_customer_witness :
    customerExists lowStockDB 999 = false ∧
      create_order lowStockDB 999 7 [⟨1, 1⟩] =
        (lowStockDB, Except.error fkErrorMsg) :=
  ⟨rfl, create_order_unknown_customer lowStockDB 999 7 [⟨1, 1⟩] rfl⟩

/-- Counterexample to C4 as stated: `add_product` performs no check on the
caller-supplied stock, so a negative stock enters the table and the
invariant is broken by a public operation. -/
theorem add_product_negative_stock_breaks_invariant :
    allStocksNonneg init_db ∧
      ¬ allStocksNonneg (add_product init_db "Widget" 10 (-1)).2 := by
  constructor
  · decide
  · decide

/-- C4 (amended): non-negativity of all stocks is preserved by
`create_order` (successful or failed; product ids are unique, `id` being
the primary key) and by `delete_product` unconditionally, and by
`add_product` and `update_product_stock` exactly when the caller-supplied
stock is itself non-negative — neither performs any check, so a negative
argument violates the invariant. -/
theorem stock_nonneg_invariant :
    (∀ (db : DB) (name : String) (price : ℚ) (stock : Int),
        allStocksNonneg db → 0 ≤ stock →
          allStocksNonneg (add_product db name price stock).2) ∧
      (∀ (db : DB) (pid stock : Int),
        allStocksNonneg db → 0 ≤ stock →
          allStocksNonneg (update_product_stock db pid stock)) ∧
      (∀ (db : DB) (pid : Int),
        allStocksNonneg db → allStocksNonneg (delete_product db pid).1) ∧
      (∀ (db : DB) (cid : Int) (ts : Nat) (lines : List OrderLine),
        allStocksNonneg db → (db.products.map (fun p => p.id)).Nodup →
          allStocksNonneg (create_order db cid ts lines).1) := by
  refine ⟨?_, ?_, ?_, ?_⟩
  · intro db name price stock hpos hst p hp
    rcases List.mem_append.mp hp with h | h
    · exact hpos p h
    · rw [List.mem_singleton.mp h]
      exact hst
  · intro db pid stock hpos hst p hp
    have hp' : p ∈ db.products.map
        (fun p => if p.id = pid then { p with stock := stock } else p) := hp
    rcases List.mem_map.mp hp' with ⟨p0, hp0, rfl⟩
    by_cases h0 : p0.id = pid
    · rw [if_pos h0]
      exact hst
    · rw [if_neg h0]
      exact hpos p0 hp0
  · intro db pid hpos
    unfold delete_product
    split
    · exact hpos
    · intro p hp
      exact hpos p (List.mem_of_mem_filter hp)
  · intro db cid ts lines hpos hnd
    rcases create_order_fst_cases db cid ts lines with h | ⟨db2, oid, hok, hfst⟩
    · rw [h]; exact hpos
    · rw [hfst]
      obtain ⟨_, _, hpl⟩ := create_order_ok_elim hok
      exact processLines_stock_nonneg lines _ db.next_order_id db2 hpl hpos hnd

/-- Witness for the amended C4: concrete instances of the stock-update and
order-creation conjuncts. -/
theorem stock_nonneg_invariant_witness :
    allStocksNonneg (update_product_stock widgetStoreDB 1 0) ∧
      allStocksNonneg (create_order widgetStoreDB 1 7 [⟨1, 2⟩]).1 :=
  ⟨stock_nonneg_invariant.2.1 widgetStoreDB 1 0 (by decide) (by decide),
    stock_nonneg_invariant.2.2.2 widgetStoreDB 1 7 [⟨1, 2⟩] (by decide)
      (by decide)⟩

/-- C5: each persisted order line item carries the unit price read from the
product row at that line's stock check, and the report of an existing order
is unaffected by any later mutation of the products table — replacing the
products table wholesale, `update_product_stock`, `delete_product` (which
either refuses or removes the row) and `add_product` leave the whole
`list_orders` result, totals included, unchanged. -/
theorem price_snapshot :
    (∀ (db : DB) (ps : List Product),
        list_orders { db with products := ps } = list_orders db) ∧
      (∀ (db : DB) (pid stock : Int),
        list_orders (update_product_stock db pid stock) = list_orders db) ∧
      (∀ (db : DB) (pid : Int),
        list_orders (delete_product db pid).1 = list_orders db) ∧
      (∀ (db : DB) (name : String) (price : ℚ) (stock : Int),
        list_orders (add_product db name price stock).2 = list_orders db) ∧
      (∀ (db : DB) (cid : Int) (ts : Nat) (lines : List OrderLine)
          (db2 : DB) (oid : Int),
        create_order db cid ts lines = (db2, Except.ok oid) →
          ∀ it ∈ db2.order_items,
            it ∈ db.order_items ∨
              ∃ p, db.products.find? (fun pr => pr.id == it.product_id) =
                  some p ∧ it.price = p.price) := by
  refine ⟨fun db ps => rfl, fun db pid st => rfl, ?_, fun db n pr st => rfl,
    ?_⟩
  · intro db pid
    unfold delete_product
    split
    · rfl
    · rfl
  · intro db cid ts lines db2 oid h
    obtain ⟨_, _, hpl⟩ := create_order_ok_elim h
    intro it hit
    exact processLines_prices lines _ db.next_order_id db2 hpl it hit

/-- Witness for C5: a stock update leaves the report unchanged, and a
concrete successful order captured the catalog price of its product. -/
theorem price_snapshot_witness :
    list_orders (update_product_stock widgetStoreDB 1 0) =
        list_orders widgetStoreDB ∧
      ∀ it ∈ (create_order widgetStoreDB 1 7 [⟨1, 2⟩]).1.order_items,
        it ∈ widgetStoreDB.order_items ∨
          ∃ p, widgetStoreDB.products.find?
              (fun pr => pr.id == it.product_id) = some p ∧
            it.price = p.price :=
  ⟨price_snapshot.2.1 widgetStoreDB 1 0,
    price_snapshot.2.2.2.2 widgetStoreDB 1 7 [⟨1, 2⟩] _ 1 rfl⟩

/-- Counterexample to C9: `create_order` performs no positivity check on
quantities: requesting quantity -3 of a product with stock 5 succeeds,
persists an `order_items` row with quantity -3, and raises the stock to 8. -/
theorem create_order_persists_negative_quantity :
    (create_order widgetStoreDB 1 7 [⟨1, -3⟩]).2 = Except.ok 1 ∧
      (create_order widgetStoreDB 1 7 [⟨1, -3⟩]).1.order_items.map
          (fun it => it.quantity) = [-3] ∧
      (create_order widgetStoreDB 1 7 [⟨1, -3⟩]).1.products.map
          (fun p => p.stock) = [8] := ⟨rfl, rfl, rfl⟩

/-- C9 (amended): every successful `create_order` call persists exactly one
`order_items` row per requested line, carrying exactly the caller-supplied
quantity; no positivity validation exists anywhere on the path (CLI parsing
accepts signed integers), so zero or negative quantities are stored as
supplied whenever the `stock < quantity` comparison lets them through. -/
theorem create_order_quantities (db : DB) (cid : Int) (ts : Nat)
    (lines : List OrderLine) (db2 : DB) (oid : Int)
    (h : create_order db cid ts lines = (db2, Except.ok oid)) :
    db2.order_items.map (fun it => it.quantity) =
      db.order_items.map (fun it => it.quantity) ++
        lines.map (fun l => l.quantity) := by
  obtain ⟨_, _, hpl⟩ := create_order_ok_elim h
  exact processLines_quantities lines
    { db with orders := db.orders ++ [⟨db.next_order_id, cid, ts⟩],
              next_order_id := db.next_order_id + 1 }
    db.next_order_id db2 hpl

/-- Witness for the amended C9 at a concrete successful call. -/
theorem create_order_quantities_witness :
    (create_order widgetStoreDB 1 7 [⟨1, 2⟩]).1.order_items.map
        (fun it => it.quantity) =
      widgetStoreDB.order_items.map (fun it => it.quantity) ++ [2] :=
  create_order_quantities widgetStoreDB 1 7 [⟨1, 2⟩] _ 1 rfl

/-- Counterexample to C6 as stated: a state reached through the public API
(add a customer, then `create_order` with an empty line sequence) holds one
order, yet `list_orders` returns no entry at all — not one entry per
order. -/
theorem list_orders_misses_an_order :
    ((create_order (add_customer init_db "Alice" "alice@example.com").2
          1 5 []).1.orders.length = 1) ∧
      list_orders (create_order (add_customer init_db "Alice"
          "alice@example.com").2 1 5 []).1 = [] := ⟨rfl, rfl⟩

/-- C6 (amended): for every database state in which every order's customer
exists (the schema's foreign key guarantees this for stored states) and
every order has at least one line item, `list_orders` returns exactly one
entry per order — the order id, its creation timestamp, the owning
customer's name, and a total equal to the sum of `quantity * price` over
that order's line items — and the returned sequence is sorted by creation
timestamp, most recent first; the operation is a pure function of the state
(no writes). Orders with no line items are dropped by the inner join (the
C10 theorem). -/
theorem list_orders_spec (db : DB)
    (hc : ∀ o ∈ db.orders,
      (db.customers.find? (fun c => c.id == o.customer_id)).isSome)
    (hi : ∀ o ∈ db.orders, itemsOf db o.id ≠ []) :
    (list_orders db).Perm
        (db.orders.map (fun o =>
          ⟨o.id, o.created_at, customerNameOf db o.customer_id,
            orderTotal db o.id⟩)) ∧
      (list_orders db).Sorted rowGe := by
  constructor
  · unfold list_orders
    rw [filterMap_rowOf_eq_map db db.orders hc hi]
    exact sortRows_perm _
  · exact sorted_sortRows _

/-- Two orders of one customer, used by the reporting witnesses. -/
def reportDB : DB :=
  { products := [⟨1, "Widget", 10, 5⟩],
    customers := [⟨1, "Alice", "alice@example.com"⟩],
    orders := [⟨1, 1, 10⟩, ⟨2, 1, 20⟩],
    order_items := [⟨1, 1, 2, 10⟩, ⟨2, 1, 1, 10⟩],
    next_product_id := 2, next_customer_id := 2, next_order_id := 3 }

/-- Witness for the amended C6 at a concrete two-order state. -/
theorem list_orders_spec_witness :
    (list_orders reportDB).Perm
        (reportDB.orders.map (fun o =>
          ⟨o.id, o.created_at, customerNameOf reportDB o.customer_id,
            orderTotal reportDB o.id⟩)) ∧
      (list_orders reportDB).Sorted rowGe :=
  list_orders_spec reportDB (by decide) (by decide)

/-- Counterexample to C8 as stated: the token `-1:2` does not match
`^\d+:\d+$`, yet `_parse_order_lines` accepts it (Python's `int()` accepts
a sign), so acceptance is not equivalent to the pattern. -/
theorem parse_accepts_nonpattern_token :
    matchesLinePattern "-1:2" = false ∧
      parse_order_lines ["-1:2"] = Except.ok [⟨-1, 2⟩] := ⟨rfl, rfl⟩

/-- C8 (amended): every token matching `^\d+:\d+$` is accepted, and an
empty token sequence fails validation before the order engine is invoked;
but the converse fails — acceptance extends beyond the pattern to any
colon-carrying token whose two halves Python's `int()` parses (optional
sign, surrounding whitespace, underscores between digits). -/
theorem parse_accepts_pattern :
    (∀ raw : String, matchesLinePattern raw = true →
        ∃ l, parseOneLine raw = Except.ok l) ∧
      parse_order_lines [] =
        Except.error "At least one order line is required" := by
  refine ⟨?_, rfl⟩
  intro raw h
  unfold matchesLinePattern at h
  cases hsp : splitFirstColon raw.data with
  | none => rw [hsp] at h; simp at h
  | some ab =>
    obtain ⟨a, b⟩ := ab
    rw [hsp] at h
    simp only [Bool.and_eq_true] at h
    obtain ⟨⟨⟨ha, hb⟩, hda⟩, hdb⟩ := h
    have hane : a ≠ [] := by
      intro hnil
      rw [hnil] at ha
      simp at ha
    have hbne : b ≠ [] := by
      intro hnil
      rw [hnil] at hb
      simp at hb
    obtain ⟨n1, h1⟩ := pyInt_of_digits hane hda
    obtain ⟨n2, h2⟩ := pyInt_of_digits hbne hdb
    refine ⟨⟨n1, n2⟩, ?_⟩
    simp only [parseOneLine, hsp, h1, h2]

/-- Witness for the amended C8: `12:3` matches the pattern and parses. -/
theorem parse_accepts_pattern_witness :
    matchesLinePattern "12:3" = true ∧
      (∃ l, parseOneLine "12:3" = Except.ok l) ∧
      parse_order_lines [] =
        Except.error "At least one order line is required" :=
  ⟨rfl, parse_accepts_pattern.1 "12:3" rfl, parse_accepts_pattern.2⟩

/-- C10: `list_orders` omits any order that has no line items: because the
reporting query inner-joins `orders` with `order_items`, an order id with
no `order_items` rows never appears in the result at all (rather than
appearing with a total of zero). -/
theorem list_orders_omits_empty_orders (db : DB) (o : Order)
    (_ho : o ∈ db.orders)
    (hno : ∀ it ∈ db.order_items, it.order_id ≠ o.id) :
    ∀ r ∈ list_orders db, r.id ≠ o.id := by
  intro r hr heq
  have hr' : r ∈ db.orders.filterMap (rowOf db) :=
    (sortRows_perm _).mem_iff.mp hr
  rcases List.mem_filterMap.mp hr' with ⟨o1, _ho1, hro⟩
  rcases rowOf_some_elim hro with ⟨hid, hitems⟩
  apply hitems
  have hoid : o1.id = o.id := by rw [← hid, heq]
  rw [hoid]
  simp only [itemsOf]
  rw [List.filter_eq_nil_iff]
  intro it hit
  simp [hno it hit]

/-- One order with no line items, used by the C10 witness. -/
def lonelyOrderDB : DB :=
  { products := [], customers := [⟨1, "Ann", "ann@example.com"⟩],
    orders := [⟨1, 1, 3⟩], order_items := [],
    next_product_id := 1, next_customer_id := 2, next_order_id := 2 }

/-- Witness for C10: the item-less order 1 never shows up in the report. -/
theorem list_orders_omits_empty_orders_witness :
    ((⟨1, 1, 3⟩ : Order) ∈ lonelyOrderDB.orders) ∧
      ∀ r ∈ list_orders lonelyOrderDB, r.id ≠ (1 : Int) :=
  ⟨by decide,
    list_orders_omits_empty_orders lonelyOrderDB ⟨1, 1, 3⟩ (by decide)
      (by decide)⟩

end Shop
